import Mathlib

/-!
Shallow embedding of the Spark SQL date/time functions of
`velox/functions/sparksql/DateTimeFunctions.h`, together with the calendar
helpers they call. Helpers whose code is not part of this snapshot
(`util::isLeapYear`, `util::getMaxDayOfMonth`, `util::daysSinceEpochFromDate`,
`getDateTime`, `addToDate`, the Joda formatter) are modelled from the
specification; everything else is translated from the source.
-/

namespace VeloxSpark

/-- Truncation of a mathematical integer to a signed 32-bit value
(two's-complement wraparound), as a C++ cast to `int32_t` behaves. -/
def toInt32 (x : Int) : Int := (x + 2 ^ 31) % 2 ^ 32 - 2 ^ 31

/-- Truncation of a mathematical integer to a signed 16-bit value,
as the implicit narrowing to `int16_t` behaves. -/
def toInt16 (x : Int) : Int := (x + 2 ^ 15) % 2 ^ 16 - 2 ^ 15

/-- Modelled from the spec: `util::isLeapYear(year)` — "true iff divisible by
4 and (not divisible by 100 or divisible by 400)". -/
def isLeapYear (year : Int) : Bool :=
  year % 4 == 0 && (year % 100 != 0 || year % 400 == 0)

/-- Modelled from the spec: `util::getMaxDayOfMonth(year, month)` — "standard
month lengths, February length 28 or 29 per `isLeapYear`". -/
def getMaxDayOfMonth (year month : Int) : Int :=
  if month = 2 then (if isLeapYear year then 29 else 28)
  else if month = 4 ∨ month = 6 ∨ month = 9 ∨ month = 11 then 30
  else 31

/-- Modelled from the spec: `util::daysSinceEpochFromDate(year, month, day)` —
"the standard proleptic-Gregorian algorithm (civil-to-days transform)" with
day 0 = 1970-01-01, computed in a wide integer type (here, `Int`). -/
def daysSinceEpochFromDate (year month day : Int) : Int :=
  let y := if month ≤ 2 then year - 1 else year
  let era := y / 400
  let yoe := y - era * 400
  let mp := (month + 9) % 12
  let doy := (153 * mp + 2) / 5 + day - 1
  let doe := yoe * 365 + yoe / 4 - yoe / 100 + doy
  era * 146097 + doe - 719468

/-- Modelled from the spec: the inverse of the epoch-day transform
(days-to-civil), producing the (year, month, day) decomposition of an
epoch-day count. -/
def civilFromDays (days : Int) : Int × Int × Int :=
  let z := days + 719468
  let era := z / 146097
  let doe := z % 146097
  let yoe := (doe - doe / 1460 + doe / 36524 - doe / 146096) / 365
  let y := yoe + era * 400
  let doy := doe - (365 * yoe + yoe / 4 - yoe / 100)
  let mp := (5 * doy + 2) / 153
  let d := doy - (153 * mp + 2) / 5 + 1
  let m := mp + (if mp < 10 then 3 else -9)
  (y + (if m ≤ 2 then 1 else 0), m, d)

/-- The year-of-era extraction step inside `civilFromDays`. -/
def yearOfEra (doe : Int) : Int :=
  (doe - doe / 1460 + doe / 36524 - doe / 146096) / 365

/-- The day-of-era on which year-of-era `k` starts (first of March). -/
def startOfYearOfEra (k : Int) : Int := 365 * k + k / 4 - k / 100

/-- The fields of `std::tm` that these functions read. -/
structure Tm where
  tm_year : Int
  tm_mon : Int
  tm_mday : Int
  tm_yday : Int
  tm_wday : Int
deriving Repr, DecidableEq

/-- Modelled from the spec: `getDateTime(date)` decomposes a timezone-naive
Date (epoch-day count) into calendar fields {year, month (1-12), day (1-31),
day-of-year, day-of-week (0=Sunday..6=Saturday)} via the inverse epoch-day
transform (`std::tm` stores year−1900 and month−1; epoch day 0, 1970-01-01,
was a Thursday, hence the +4 in the weekday). -/
def getDateTime (date : Int) : Tm :=
  let c := civilFromDays date
  { tm_year := c.1 - 1900
    tm_mon := c.2.1 - 1
    tm_mday := c.2.2
    tm_yday := date - daysSinceEpochFromDate c.1 1 1
    tm_wday := (date + 4) % 7 }

/-- Modelled from the spec: `addToDate(date, DateTimeUnit::kDay, value)`
"shifts the epoch-day count by `value`". -/
def addToDate (date value : Int) : Int := date + value

def kDaysInWeek : Int := 7

/-- Embedding of `WeekFunction::getWeek` (`DateTimeFunctions.h`): base
estimate by integer division, with the estimate-0 and estimate-53 fixups.
C++ truncating division/remainder are `Int.tdiv`/`Int.tmod`. -/
def getWeek (time : Tm) : Int :=
  let week := (10 + (time.tm_yday + 1) -
      (if time.tm_wday != 0 then time.tm_wday else kDaysInWeek)).tdiv kDaysInWeek
  if week = 0 then
    let mondayOfWeek :=
      time.tm_yday + 1 - (time.tm_wday + kDaysInWeek - 1).tmod kDaysInWeek
    let firstMondayOfYear :=
      1 + (mondayOfWeek + kDaysInWeek - 1).tmod kDaysInWeek
    if (isLeapYear (time.tm_year + 1900 - 1) && firstMondayOfYear == 2) ||
        firstMondayOfYear == 3 || firstMondayOfYear == 4 then
      53
    else
      52
  else if week = 53 then
    let mondayOfWeek :=
      time.tm_yday + 1 - (time.tm_wday + kDaysInWeek - 1).tmod kDaysInWeek
    let daysInYear := if isLeapYear (time.tm_year + 1900) then 366 else 365
    if daysInYear - mondayOfWeek < 3 then 1 else week
  else week

/-- Embedding of `WeekFunction::call` for a Date argument. -/
def WeekFunction.call (date : Int) : Int := getWeek (getDateTime date)

/-- Embedding of `MakeDateFunction::call`: compute the epoch-day count in a
wide integer; `VELOX_USER_CHECK_EQ` against the `int32_t` cast fails with the
overflow error unless the value is unchanged by the cast. -/
def MakeDateFunction.call (year month day : Int) : Except String Int :=
  let daysSinceEpoch := daysSinceEpochFromDate year month day
  if daysSinceEpoch = toInt32 daysSinceEpoch then
    Except.ok daysSinceEpoch
  else
    Except.error "Integer overflow in make_date"

/-- Embedding of `LastDayFunction::call`: re-encode (year, month,
maxDayOfMonth) of the input date, with the same overflow check. (The source's
local `day` is assigned `getMonth(dateTime)` but is only used in the error
message, so it does not affect the result.) -/
def LastDayFunction.call (date : Int) : Except String Int :=
  let dateTime := getDateTime date
  let year := 1900 + dateTime.tm_year
  let month := 1 + dateTime.tm_mon
  let lastDay := getMaxDayOfMonth year month
  let daysSinceEpoch := daysSinceEpochFromDate year month lastDay
  if daysSinceEpoch = toInt32 daysSinceEpoch then
    Except.ok daysSinceEpoch
  else
    Except.error "Integer overflow in last_day"

/-- Embedding of `DateAddFunction::call`. -/
def DateAddFunction.call (date value : Int) : Int :=
  addToDate date value

/-- Embedding of `DateSubFunction::call`: negate and add, except that
`INT32_MIN` is subtracted in two steps (`-(kMin+1)`, then `1`) to avoid
overflowing the `int32_t` negation. -/
def DateSubFunction.call (date value : Int) : Int :=
  let kMin : Int := -(2 ^ 31)
  if value > kMin then
    let subValue := 0 - value
    addToDate date subValue
  else
    let subValue := 0 - (kMin + 1)
    addToDate (addToDate date subValue) 1

/-- Embedding of `DateDiffFunction::call`: `int32_t` subtraction of the two
epoch-day counts; signed-overflow instrumentation is suppressed in the
source, so the behavior is two's-complement wraparound. -/
def DateDiffFunction.call (endDate startDate : Int) : Int :=
  toInt32 (endDate - startDate)

/-- Embedding of `AddMonthsFunction::call`: base-12 carry arithmetic on the
zero-based month in `int64_t`, day clamped to the target month's length,
then re-encoded with the same overflow check as `make_date`. -/
def AddMonthsFunction.call (date numMonths : Int) : Except String Int :=
  let dateTime := getDateTime date
  let year := 1900 + dateTime.tm_year
  let month := 1 + dateTime.tm_mon
  let day := dateTime.tm_mday
  let monthAdded := month - 1 + numMonths
  let yearOffset := (if monthAdded ≥ 0 then monthAdded else monthAdded - 11).tdiv 12
  let monthResult := monthAdded - yearOffset * 12 + 1
  let yearResult := year + yearOffset
  let lastDayOfMonth := getMaxDayOfMonth yearResult monthResult
  let dayResult := if lastDayOfMonth < day then lastDayOfMonth else day
  let daysSinceEpoch := daysSinceEpochFromDate yearResult monthResult dayResult
  if daysSinceEpoch = toInt32 daysSinceEpoch then
    Except.ok daysSinceEpoch
  else
    Except.error "Integer overflow in add_months"

/-- Embedding of `UnixTimestampParseFunction::getTimezoneId`: prefer the
parsed timezone when it is not the sentinel −1, otherwise the session
timezone, defaulting to 0 (GMT); the value is returned as `int16_t`. -/
def getTimezoneId (parsedTzId : Int) (sessionTzID : Option Int) : Int :=
  toInt16 (if parsedTzId ≠ -1 then parsedTzId else sessionTzID.getD 0)

/-- Modelled from the spec: the result a compiled formatter produces for one
input — UTC-normalized epoch seconds paired with the parsed timezone id
(sentinel −1 when absent). `parse` failure (ParseError) is `none`. -/
structure DateTimeResult where
  seconds : Int
  timezoneId : Int
deriving Repr, DecidableEq

/-- Modelled from the spec: a compiled format pattern, abstracted as its
parse behavior. -/
def Formatter := String → Option DateTimeResult

/-- The ISO day-of-week of a date: Monday..Saturday are 1..6 and Sunday is 7
(the mapping the claim describes for the week formula). -/
def isoDayOfWeek (date : Int) : Int :=
  let w := (getDateTime date).tm_wday
  if w = 0 then 7 else w

/-- The 1-based day-of-year of a date. -/
def dayOfYear (date : Int) : Int := (getDateTime date).tm_yday + 1

/-- The day-of-year (1..7) on which the first Monday of `year` falls,
computed from the weekday of January 1 of that year. -/
def firstMondayOfYear (year : Int) : Int :=
  let jan1 := daysSinceEpochFromDate year 1 1
  let w := (jan1 + 4) % 7
  let k := if w = 0 then 7 else w
  1 + (8 - k) % 7

/-- The ISO-8601 week number as described by the claim, reading "its first
Monday" as the first Monday of the date's own (current) year: base estimate
`⌊(10 + dayOfYear - isoDayOfWeek) / 7⌋`; estimate 0 resolves to 53 when the
previous year is leap and the current year's first Monday falls on day 2, or
that first Monday falls on day 3 or 4, else 52; estimate 53 becomes 1 when
fewer than 3 days separate that week's Monday from the end of the year. -/
def isoWeekSpec (date : Int) : Int :=
  let year := 1900 + (getDateTime date).tm_year
  let doy := dayOfYear date
  let dow := isoDayOfWeek date
  let est := (10 + doy - dow) / 7
  if est = 0 then
    if (isLeapYear (year - 1) = true ∧ firstMondayOfYear year = 2) ∨
        firstMondayOfYear year = 3 ∨ firstMondayOfYear year = 4 then 53
    else 52
  else if est = 53 then
    if (if isLeapYear year = true then 366 else 365) - (doy - (dow - 1)) < 3
    then 1 else 53
  else est

/-- The ISO-8601 week number under the claim's literal wording for the
estimate-0 case: the result is 53 when "the previous year is leap and its
first Monday falls on day 2, or its first Monday falls on day 3 or 4",
with "its" referring to the *previous* year. -/
def isoWeekClaim (date : Int) : Int :=
  let year := 1900 + (getDateTime date).tm_year
  let doy := dayOfYear date
  let dow := isoDayOfWeek date
  let est := (10 + doy - dow) / 7
  if est = 0 then
    if (isLeapYear (year - 1) = true ∧ firstMondayOfYear (year - 1) = 2) ∨
        firstMondayOfYear (year - 1) = 3 ∨ firstMondayOfYear (year - 1) = 4
    then 53
    else 52
  else if est = 53 then
    if (if isLeapYear year = true then 366 else 365) - (doy - (dow - 1)) < 3
    then 1 else 53
  else est

/-- The add-months result described by the claim: base-12 carry on the
zero-based month index with floor division for the year carry, and the day
clamped to the length of the resulting month. -/
def addMonthsSpec (year month day numMonths : Int) : Int × Int × Int :=
  let y2 := year + (month - 1 + numMonths) / 12
  let m2 := (month - 1 + numMonths) % 12 + 1
  (y2, m2, min day (getMaxDayOfMonth y2 m2))

/-- The per-instance mutable state of
`UnixTimestampParseWithFormatFunction`: the cached compiled pattern, the
constant-format flag, and the cached invalid-format flag. -/
structure UnixTimestampParseWithFormatState where
  format : Option Formatter
  isConstFormat : Bool
  invalidFormat : Bool

/-- Embedding of `UnixTimestampParseWithFormatFunction::initialize` (the
format-argument part). `buildJodaDateTimeFormatter` is not part of this
snapshot and is passed in abstractly (`none` = InvalidFormat): a constant
format is compiled once, and a compilation failure is recorded in
`invalidFormat`. -/
def UnixTimestampParseWithFormatFunction.initFormat
    (build : String → Option Formatter) (format : Option String) :
    UnixTimestampParseWithFormatState :=
  match format with
  | some f =>
      match build f with
      | some fmt =>
          { format := some fmt, isConstFormat := true, invalidFormat := false }
      | none =>
          { format := none, isConstFormat := true, invalidFormat := true }
  | none => { format := none, isConstFormat := false, invalidFormat := false }

/-- Embedding of `UnixTimestampParseWithFormatFunction::call`: a cached
invalid format short-circuits to a null result; otherwise a non-constant
format is recompiled per row; any compile or parse failure yields null. -/
def UnixTimestampParseWithFormatFunction.call
    (build : String → Option Formatter)
    (state : UnixTimestampParseWithFormatState)
    (input format : String) : Option Int :=
  if state.invalidFormat then none
  else
    let fmtOpt := if !state.isConstFormat then build format else state.format
    match fmtOpt with
    | none => none
    | some fmt =>
        match fmt input with
        | none => none
        | some res => some res.seconds

theorem toInt32_eq_self_iff (x : Int) :
    toInt32 x = x ↔ -(2 ^ 31) ≤ x ∧ x < 2 ^ 31 := by
  unfold toInt32
  omega

theorem toInt16_eq_self_iff (x : Int) :
    toInt16 x = x ↔ -(2 ^ 15) ≤ x ∧ x < 2 ^ 15 := by
  unfold toInt16
  omega

theorem isLeapYear_iff (y : Int) :
    isLeapYear y = true ↔ y % 4 = 0 ∧ (y % 100 ≠ 0 ∨ y % 400 = 0) := by
  unfold isLeapYear
  simp [Bool.and_eq_true, Bool.or_eq_true]

/-- C3: `date_sub(d, n)` returns `d` shifted by `-n` days for every `int32`
value `n`; `n = INT32_MIN` is handled by the two-step decomposition without
negating `INT32_MIN`, and yields `d + 2147483648`. The embedding is a total
function, so `date_sub` never fails or returns null. -/
theorem dateSub_shifts_by_minus_n (d n : Int) (h : -(2 ^ 31) ≤ n) :
    DateSubFunction.call d n = d - n ∧
    DateSubFunction.call d (-(2 ^ 31)) = d + 2147483648 := by
  simp only [DateSubFunction.call, addToDate]
  constructor
  · split_ifs <;> omega
  · split_ifs <;> omega

theorem dateSub_shifts_by_minus_n_witness :
    DateSubFunction.call 5 (-(2 ^ 31)) = 5 - -(2 ^ 31) :=
  (dateSub_shifts_by_minus_n 5 (-(2 ^ 31)) (by decide)).1

/-- C9: for every `n > INT32_MIN`, `date_sub(d, n)` agrees with
`date_add(d, -n)`. -/
theorem dateSub_eq_dateAdd_neg (d n : Int) (h : -(2 ^ 31) < n) :
    DateSubFunction.call d n = DateAddFunction.call d (-n) := by
  simp only [DateSubFunction.call, DateAddFunction.call, addToDate]
  split_ifs <;> omega

theorem dateSub_eq_dateAdd_neg_witness :
    DateSubFunction.call 100 7 = DateAddFunction.call 100 (-7) :=
  dateSub_eq_dateAdd_neg 100 7 (by decide)

/-- C5: `date_diff(end, start)` is the plain signed 32-bit subtraction
`end - start`: it agrees with the true difference modulo `2^32`, always lands
in `int32` range (wraparound at the extremes rather than an error), and
equals the true difference whenever that difference is representable. The
embedding is a total function, so `date_diff` never fails or returns null. -/
theorem dateDiff_wraparound (endDate startDate : Int)
    (he : -(2 ^ 31) ≤ endDate ∧ endDate < 2 ^ 31)
    (hs : -(2 ^ 31) ≤ startDate ∧ startDate < 2 ^ 31) :
    (DateDiffFunction.call endDate startDate - (endDate - startDate)) % 2 ^ 32 = 0 ∧
    -(2 ^ 31) ≤ DateDiffFunction.call endDate startDate ∧
    DateDiffFunction.call endDate startDate < 2 ^ 31 ∧
    (-(2 ^ 31) ≤ endDate - startDate → endDate - startDate < 2 ^ 31 →
      DateDiffFunction.call endDate startDate = endDate - startDate) := by
  unfold DateDiffFunction.call toInt32
  omega

theorem dateDiff_wraparound_witness :
    ((DateDiffFunction.call (-(2 ^ 31)) (2 ^ 31 - 1) -
        (-(2 ^ 31) - (2 ^ 31 - 1))) % 2 ^ 32 = 0 ∧
      -(2 ^ 31) ≤ DateDiffFunction.call (-(2 ^ 31)) (2 ^ 31 - 1) ∧
      DateDiffFunction.call (-(2 ^ 31)) (2 ^ 31 - 1) < 2 ^ 31 ∧
      (-(2 ^ 31) ≤ -(2 ^ 31) - (2 ^ 31 - 1) → -(2 ^ 31) - (2 ^ 31 - 1) < 2 ^ 31 →
        DateDiffFunction.call (-(2 ^ 31)) (2 ^ 31 - 1) = -(2 ^ 31) - (2 ^ 31 - 1))) ∧
    DateDiffFunction.call (-(2 ^ 31)) (2 ^ 31 - 1) = 1 :=
  ⟨dateDiff_wraparound (-(2 ^ 31)) (2 ^ 31 - 1) (by decide) (by decide), by decide⟩

/-- C7: timezone resolution after parsing — an explicit parsed timezone
(different from the sentinel −1) wins; otherwise the session timezone is
used; with no session timezone the result falls back to UTC (identifier 0).
The `int16` range hypotheses reflect that valid timezone identifiers are
small integers (the sentinel itself is −1). -/
theorem getTimezoneId_resolution (tz : Int) (session : Option Int)
    (htz : -(2 ^ 15) ≤ tz ∧ tz < 2 ^ 15)
    (hs : -(2 ^ 15) ≤ session.getD 0 ∧ session.getD 0 < 2 ^ 15) :
    (tz ≠ -1 → getTimezoneId tz session = tz) ∧
    (tz = -1 → getTimezoneId tz session = session.getD 0) ∧
    (tz = -1 → session = none → getTimezoneId tz session = 0) := by
  simp only [getTimezoneId, toInt16]
  refine ⟨fun hne => ?_, fun heq => ?_, fun heq hnone => ?_⟩
  · rw [if_pos hne]
    omega
  · rw [if_neg (by omega)]
    omega
  · subst hnone
    rw [if_neg (by omega)]
    simp only [Option.getD_none]
    omega

theorem getTimezoneId_resolution_witness :
    ((1825 : Int) ≠ -1 → getTimezoneId 1825 (some 42) = 1825) ∧
    ((1825 : Int) = -1 → getTimezoneId 1825 (some 42) = (some 42 : Option Int).getD 0) ∧
    ((1825 : Int) = -1 → (some 42 : Option Int) = none →
      getTimezoneId 1825 (some 42) = 0) :=
  getTimezoneId_resolution 1825 (some 42) (by decide) (by decide)

/-- C6: for the two-argument `unix_timestamp` with a constant format, a
compilation failure at initialization is cached in `invalidFormat`, and every
subsequent call returns the null result (`none`, not an error) without
retrying compilation — the result does not depend on the compile function
available at call time. -/
theorem unixTimestampParse_invalidFormat_cached
    (build : String → Option Formatter) (f : String)
    (hfail : build f = none) :
    (UnixTimestampParseWithFormatFunction.initFormat build (some f)).invalidFormat
        = true ∧
    ∀ (buildAtCall : String → Option Formatter) (input fmt : String),
      UnixTimestampParseWithFormatFunction.call buildAtCall
        (UnixTimestampParseWithFormatFunction.initFormat build (some f))
        input fmt = none := by
  simp only [UnixTimestampParseWithFormatFunction.initFormat, hfail]
  exact ⟨trivial, fun buildAtCall input fmt => rfl⟩

theorem unixTimestampParse_invalidFormat_cached_witness :
    UnixTimestampParseWithFormatFunction.call
      (fun _ => some (fun _ => some ⟨1623753000, -1⟩))
      (UnixTimestampParseWithFormatFunction.initFormat
        (fun _ => none) (some "yyyy-QQ"))
      "2021-06-15 10:30:00" "yyyy-QQ" = none :=
  (unixTimestampParse_invalidFormat_cached (fun _ => none) "yyyy-QQ" rfl).2
    (fun _ => some (fun _ => some ⟨1623753000, -1⟩)) "2021-06-15 10:30:00" "yyyy-QQ"

/-- C10: `last_day` depends on its input date only through the date's year
and month: two dates that decompose to the same year and month produce the
same result, regardless of their day-of-month. -/
theorem lastDay_same_year_month (d1 d2 : Int)
    (hy : (getDateTime d1).tm_year = (getDateTime d2).tm_year)
    (hm : (getDateTime d1).tm_mon = (getDateTime d2).tm_mon) :
    LastDayFunction.call d1 = LastDayFunction.call d2 := by
  simp only [LastDayFunction.call]
  rw [hy, hm]

theorem lastDay_same_year_month_witness :
    LastDayFunction.call 18668 = LastDayFunction.call 18678 :=
  lastDay_same_year_month 18668 18678 (by decide) (by decide)

set_option maxHeartbeats 12000000

theorem yearOfEra_inv (D : Int) (h0 : 0 ≤ D) (h1 : D < 146097) :
    (0 ≤ yearOfEra D ∧ yearOfEra D ≤ 399) ∧
    startOfYearOfEra (yearOfEra D) ≤ D ∧
    (D - startOfYearOfEra (yearOfEra D) ≤ 364 ∨
     (D - startOfYearOfEra (yearOfEra D) = 365 ∧ (yearOfEra D + 1) % 4 = 0 ∧
      ((yearOfEra D + 1) % 100 ≠ 0 ∨ yearOfEra D = 399))) := by
  simp only [yearOfEra, startOfYearOfEra]
  obtain ⟨q, hq⟩ : ∃ q, D / 1460 = q := ⟨_, rfl⟩
  have hq0 : 0 ≤ q := by omega
  have hq1 : q ≤ 100 := by omega
  interval_cases q <;>
    first
    | omega
    | (obtain ⟨r, hr⟩ : ∃ r, D / 36524 = r := ⟨_, rfl⟩
       have hr0 : 0 ≤ r := by omega
       have hr1 : r ≤ 4 := by omega
       interval_cases r <;> omega)

/-- `daysSinceEpochFromDate` at a March-based month (month ≥ 3), with the
year written as year-of-era plus era. -/
theorem encode_march (era yoe mp2 dd : Int) (h0 : 0 ≤ yoe) (h1 : yoe ≤ 399)
    (hm0 : 0 ≤ mp2) (hm1 : mp2 ≤ 9) :
    daysSinceEpochFromDate (yoe + era * 400 + 0) (mp2 + 3) dd =
      era * 146097 + (365 * yoe + yoe / 4 - yoe / 100) +
        ((153 * mp2 + 2) / 5 + dd - 1) - 719468 := by
  simp only [daysSinceEpochFromDate]
  rw [if_neg (by omega)]
  have hq : (yoe + era * 400 + 0) / 400 = era := by omega
  rw [hq]
  rw [show yoe + era * 400 + 0 - era * 400 = yoe from by ring]
  have hmp : (mp2 + 3 + 9) % 12 = mp2 := by omega
  rw [hmp]
  ring

/-- `daysSinceEpochFromDate` at a January/February month (month ≤ 2), with
the civil year written as year-of-era plus era plus one. -/
theorem encode_janfeb (era yoe mp2 dd : Int) (h0 : 0 ≤ yoe) (h1 : yoe ≤ 399)
    (hm0 : 10 ≤ mp2) (hm1 : mp2 ≤ 11) :
    daysSinceEpochFromDate (yoe + era * 400 + 1) (mp2 + -9) dd =
      era * 146097 + (365 * yoe + yoe / 4 - yoe / 100) +
        ((153 * mp2 + 2) / 5 + dd - 1) - 719468 := by
  simp only [daysSinceEpochFromDate]
  rw [if_pos (by omega)]
  rw [show yoe + era * 400 + 1 - 1 = yoe + era * 400 from by ring]
  have hq : (yoe + era * 400) / 400 = era := by omega
  rw [hq]
  rw [show yoe + era * 400 - era * 400 = yoe from by ring]
  have hmp : (mp2 + -9 + 9) % 12 = mp2 - 12 + 12 := by omega
  rw [hmp]
  rw [show (mp2 - 12 + 12 : Int) = mp2 from by ring]
  ring

/-- January 1 of the civil year `yoe + era * 400` (the year of a March-based
date with month ≥ 3). -/
theorem encode_jan1_march (era yoe : Int) (h0 : 0 ≤ yoe) (h1 : yoe ≤ 399) :
    (1 ≤ yoe →
      daysSinceEpochFromDate (yoe + era * 400 + 0) 1 1 =
        era * 146097 + (365 * (yoe - 1) + (yoe - 1) / 4 - (yoe - 1) / 100) +
          306 - 719468) ∧
    (yoe = 0 →
      daysSinceEpochFromDate (yoe + era * 400 + 0) 1 1 =
        (era - 1) * 146097 + 145731 + 306 - 719468) := by
  constructor
  · intro hge
    simp only [daysSinceEpochFromDate]
    rw [if_pos (by omega)]
    have hq : (yoe + era * 400 + 0 - 1) / 400 = era := by omega
    rw [hq]
    rw [show yoe + era * 400 + 0 - 1 - era * 400 = yoe - 1 from by ring]
    norm_num
    ring
  · intro h00
    subst h00
    simp only [daysSinceEpochFromDate]
    rw [if_pos (by omega)]
    have hq : ((0 : Int) + era * 400 + 0 - 1) / 400 = era - 1 := by omega
    rw [hq]
    rw [show (0 : Int) + era * 400 + 0 - 1 - (era - 1) * 400 = 399 from by ring]
    norm_num
    ring

/-- January 1 of the civil year `yoe + era * 400 + 1` (the year of a
March-based date with month ≤ 2). -/
theorem encode_jan1_janfeb (era yoe : Int) (h0 : 0 ≤ yoe) (h1 : yoe ≤ 399) :
    daysSinceEpochFromDate (yoe + era * 400 + 1) 1 1 =
      era * 146097 + (365 * yoe + yoe / 4 - yoe / 100) + 306 - 719468 := by
  simp only [daysSinceEpochFromDate]
  rw [if_pos (by omega)]
  rw [show yoe + era * 400 + 1 - 1 = yoe + era * 400 from by ring]
  have hq : (yoe + era * 400) / 400 = era := by omega
  rw [hq]
  rw [show yoe + era * 400 - era * 400 = yoe from by ring]
  norm_num
  ring

/-- The master lemma about the days-to-civil decomposition: the decoded
month and day are calendar-valid for the decoded year (February 29 only in
leap years), re-encoding the decoded fields gives back the epoch day, and
the distance to January 1 of the decoded year is a valid day-of-year index
(0..364, or 365 in a leap year). -/
theorem civilFromDays_spec (z : Int) :
    1 ≤ (civilFromDays z).2.1 ∧ (civilFromDays z).2.1 ≤ 12 ∧
    1 ≤ (civilFromDays z).2.2 ∧ (civilFromDays z).2.2 ≤ 31 ∧
    ((civilFromDays z).2.1 = 2 → (civilFromDays z).2.2 ≤ 29) ∧
    ((civilFromDays z).2.1 = 2 ∧ (civilFromDays z).2.2 = 29 →
      (civilFromDays z).1 % 4 = 0 ∧
      ((civilFromDays z).1 % 100 ≠ 0 ∨ (civilFromDays z).1 % 400 = 0)) ∧
    ((civilFromDays z).2.1 = 4 ∨ (civilFromDays z).2.1 = 6 ∨
      (civilFromDays z).2.1 = 9 ∨ (civilFromDays z).2.1 = 11 →
      (civilFromDays z).2.2 ≤ 30) ∧
    daysSinceEpochFromDate (civilFromDays z).1 (civilFromDays z).2.1
      (civilFromDays z).2.2 = z ∧
    0 ≤ z - daysSinceEpochFromDate (civilFromDays z).1 1 1 ∧
    (z - daysSinceEpochFromDate (civilFromDays z).1 1 1 ≤ 364 ∨
     (z - daysSinceEpochFromDate (civilFromDays z).1 1 1 = 365 ∧
      (civilFromDays z).1 % 4 = 0 ∧
      ((civilFromDays z).1 % 100 ≠ 0 ∨ (civilFromDays z).1 % 400 = 0))) := by
  simp only [civilFromDays]
  obtain ⟨doe, hdoe⟩ : ∃ x, (z + 719468) % 146097 = x := ⟨_, rfl⟩
  obtain ⟨E, hE⟩ : ∃ x, (z + 719468) / 146097 = x := ⟨_, rfl⟩
  have h0 : 0 ≤ doe := hdoe ▸ Int.emod_nonneg _ (by norm_num)
  have h1 : doe < 146097 := hdoe ▸ Int.emod_lt_of_pos _ (by norm_num)
  have hz : z + 719468 = 146097 * E + doe := by omega
  rw [hdoe, hE]
  clear hdoe hE
  have hinv := yearOfEra_inv doe h0 h1
  simp only [yearOfEra, startOfYearOfEra] at hinv
  obtain ⟨Y, hY⟩ :
      ∃ x, (doe - doe / 1460 + doe / 36524 - doe / 146096) / 365 = x := ⟨_, rfl⟩
  rw [hY] at hinv ⊢
  clear hY
  obtain ⟨doy, hdoy⟩ : ∃ x, doe - (365 * Y + Y / 4 - Y / 100) = x := ⟨_, rfl⟩
  rw [hdoy] at hinv ⊢
  obtain ⟨M, hM⟩ : ∃ x, (5 * doy + 2) / 153 = x := ⟨_, rfl⟩
  rw [hM]
  have hM0 : 0 ≤ M := by omega
  have hM1 : M ≤ 11 := by omega
  split_ifs with hc1 hc2 hc2
  · omega
  · have henc := encode_march E Y M (doy - (153 * M + 2) / 5 + 1)
      (by omega) (by omega) (by omega) (by omega)
    have hjan := encode_jan1_march E Y (by omega) (by omega)
    have hy4 : (Y % 4 = 0 ∧ Y / 4 - (Y - 1) / 4 = 1) ∨
        (Y % 4 ≠ 0 ∧ Y / 4 - (Y - 1) / 4 = 0) := by omega
    have hy100 : (Y % 100 = 0 ∧ Y / 100 - (Y - 1) / 100 = 1) ∨
        (Y % 100 ≠ 0 ∧ Y / 100 - (Y - 1) / 100 = 0) := by omega
    have hc4 : (Y + E * 400 + 0) % 4 = Y % 4 := by omega
    have hc100 : (Y + E * 400 + 0) % 100 = Y % 100 := by omega
    have hc400 : (Y + E * 400 + 0) % 400 = Y % 400 := by omega
    omega
  · have henc := encode_janfeb E Y M (doy - (153 * M + 2) / 5 + 1)
      (by omega) (by omega) (by omega) (by omega)
    have hjan := encode_jan1_janfeb E Y (by omega) (by omega)
    have hc4 : (Y + E * 400 + 1) % 4 = (Y + 1) % 4 := by omega
    have hc100 : (Y + E * 400 + 1) % 100 = (Y + 1) % 100 := by omega
    have hc400 : (Y + E * 400 + 1) % 400 = (Y + 1) % 400 := by omega
    omega
  · omega

/-- C4: `make_date` fails with the overflow hard error exactly when the
wide-integer day-count does not fit a signed 32-bit integer, and otherwise
returns that day-count (never silently truncated); in particular
`make_date(2147483647, 12, 31)` fails with overflow. -/
theorem makeDate_overflow (year month day : Int) :
    (MakeDateFunction.call year month day =
        Except.ok (daysSinceEpochFromDate year month day) ↔
      -(2 ^ 31) ≤ daysSinceEpochFromDate year month day ∧
        daysSinceEpochFromDate year month day < 2 ^ 31) ∧
    (¬(-(2 ^ 31) ≤ daysSinceEpochFromDate year month day ∧
        daysSinceEpochFromDate year month day < 2 ^ 31) →
      MakeDateFunction.call year month day =
        Except.error "Integer overflow in make_date") ∧
    MakeDateFunction.call 2147483647 12 31 =
      Except.error "Integer overflow in make_date" := by
  have hiff := toInt32_eq_self_iff (daysSinceEpochFromDate year month day)
  refine ⟨⟨fun h => ?_, fun h => ?_⟩, fun h => ?_, by rfl⟩
  · by_contra hn
    simp only [MakeDateFunction.call] at h
    rw [if_neg (fun he => hn (hiff.mp he.symm))] at h
    exact Except.noConfusion h
  · simp only [MakeDateFunction.call]
    rw [if_pos (hiff.mpr h).symm]
  · simp only [MakeDateFunction.call]
    rw [if_neg (fun he => h (hiff.mp he.symm))]

theorem makeDate_overflow_witness :
    MakeDateFunction.call 2020 2 29 = Except.ok (daysSinceEpochFromDate 2020 2 29) :=
  (makeDate_overflow 2020 2 29).1.mpr (by decide)

/-- Shifting only the day argument of the epoch-day encoding shifts the
result by the same amount. -/
theorem encode_day_shift (y m a b : Int) :
    daysSinceEpochFromDate y m a - daysSinceEpochFromDate y m b = a - b := by
  simp only [daysSinceEpochFromDate]
  omega

/-- C8: `last_day` returns the date of the last calendar day of the input
date's month: it re-encodes (year, month, maxDayOfMonth) of the input, the
result sits `maxDayOfMonth - day` days after the input (so in the same
month), and February's length follows the leap-year rule, visible in the
examples 2021-02-10 → 2021-02-28 and 2020-02-10 → 2020-02-29. -/
theorem lastDay_last_of_month (z : Int)
    (hfit : -(2 ^ 31) ≤ daysSinceEpochFromDate (civilFromDays z).1
        (civilFromDays z).2.1
        (getMaxDayOfMonth (civilFromDays z).1 (civilFromDays z).2.1) ∧
      daysSinceEpochFromDate (civilFromDays z).1 (civilFromDays z).2.1
        (getMaxDayOfMonth (civilFromDays z).1 (civilFromDays z).2.1) < 2 ^ 31) :
    LastDayFunction.call z =
      Except.ok (daysSinceEpochFromDate (civilFromDays z).1 (civilFromDays z).2.1
        (getMaxDayOfMonth (civilFromDays z).1 (civilFromDays z).2.1)) ∧
    (∀ res, LastDayFunction.call z = Except.ok res →
      res - z = getMaxDayOfMonth (civilFromDays z).1 (civilFromDays z).2.1 -
        (civilFromDays z).2.2) ∧
    LastDayFunction.call (daysSinceEpochFromDate 2021 2 10) =
      Except.ok (daysSinceEpochFromDate 2021 2 28) ∧
    LastDayFunction.call (daysSinceEpochFromDate 2020 2 10) =
      Except.ok (daysSinceEpochFromDate 2020 2 29) := by
  have hmain : LastDayFunction.call z =
      Except.ok (daysSinceEpochFromDate (civilFromDays z).1 (civilFromDays z).2.1
        (getMaxDayOfMonth (civilFromDays z).1 (civilFromDays z).2.1)) := by
    simp only [LastDayFunction.call, getDateTime]
    rw [show 1900 + ((civilFromDays z).1 - 1900) = (civilFromDays z).1 from by ring,
      show 1 + ((civilFromDays z).2.1 - 1) = (civilFromDays z).2.1 from by ring]
    rw [if_pos ((toInt32_eq_self_iff _).mpr hfit).symm]
  refine ⟨hmain, ?hshift, ?e1, ?e2⟩
  case e1 => rfl
  case e2 => rfl
  intro res hres
  rw [hmain] at hres
  injection hres with hres
  obtain ⟨_, _, _, _, _, _, _, henc, _, _⟩ := civilFromDays_spec z
  calc res - z
      = daysSinceEpochFromDate (civilFromDays z).1 (civilFromDays z).2.1
          (getMaxDayOfMonth (civilFromDays z).1 (civilFromDays z).2.1) -
        daysSinceEpochFromDate (civilFromDays z).1 (civilFromDays z).2.1
          (civilFromDays z).2.2 := by rw [← hres, henc]
    _ = getMaxDayOfMonth (civilFromDays z).1 (civilFromDays z).2.1 -
        (civilFromDays z).2.2 := encode_day_shift _ _ _ _

theorem lastDay_last_of_month_witness :
    LastDayFunction.call 18668 =
      Except.ok (daysSinceEpochFromDate (civilFromDays 18668).1
        (civilFromDays 18668).2.1
        (getMaxDayOfMonth (civilFromDays 18668).1 (civilFromDays 18668).2.1)) :=
  (lastDay_last_of_month 18668 (by decide)).1


/-- C2: `add_months` adds `n` months by base-12 carry on the zero-based
month (floor division carrying into the year) and clamps the day to the
resulting month's length; the resulting day never exceeds
`maxDayOfMonth` of the resulting year/month, and
`add_months(2021-01-31, 1) = 2021-02-28`. -/
theorem addMonths_carry_clamp (z n : Int)
    (hn : -(2 ^ 31) ≤ n ∧ n < 2 ^ 31)
    (hfit : -(2 ^ 31) ≤ daysSinceEpochFromDate
        (addMonthsSpec (civilFromDays z).1 (civilFromDays z).2.1
          (civilFromDays z).2.2 n).1
        (addMonthsSpec (civilFromDays z).1 (civilFromDays z).2.1
          (civilFromDays z).2.2 n).2.1
        (addMonthsSpec (civilFromDays z).1 (civilFromDays z).2.1
          (civilFromDays z).2.2 n).2.2 ∧
      daysSinceEpochFromDate
        (addMonthsSpec (civilFromDays z).1 (civilFromDays z).2.1
          (civilFromDays z).2.2 n).1
        (addMonthsSpec (civilFromDays z).1 (civilFromDays z).2.1
          (civilFromDays z).2.2 n).2.1
        (addMonthsSpec (civilFromDays z).1 (civilFromDays z).2.1
          (civilFromDays z).2.2 n).2.2 < 2 ^ 31) :
    AddMonthsFunction.call z n =
      Except.ok (daysSinceEpochFromDate
        (addMonthsSpec (civilFromDays z).1 (civilFromDays z).2.1
          (civilFromDays z).2.2 n).1
        (addMonthsSpec (civilFromDays z).1 (civilFromDays z).2.1
          (civilFromDays z).2.2 n).2.1
        (addMonthsSpec (civilFromDays z).1 (civilFromDays z).2.1
          (civilFromDays z).2.2 n).2.2) ∧
    (addMonthsSpec (civilFromDays z).1 (civilFromDays z).2.1
        (civilFromDays z).2.2 n).2.2 ≤
      getMaxDayOfMonth
        (addMonthsSpec (civilFromDays z).1 (civilFromDays z).2.1
          (civilFromDays z).2.2 n).1
        (addMonthsSpec (civilFromDays z).1 (civilFromDays z).2.1
          (civilFromDays z).2.2 n).2.1 ∧
    AddMonthsFunction.call (daysSinceEpochFromDate 2021 1 31) 1 =
      Except.ok (daysSinceEpochFromDate 2021 2 28) := by
  simp only [addMonthsSpec] at hfit ⊢
  refine ⟨?_, min_le_right _ _, by rfl⟩
  simp only [AddMonthsFunction.call, getDateTime]
  rw [show 1900 + ((civilFromDays z).1 - 1900) = (civilFromDays z).1 from by ring,
    show 1 + ((civilFromDays z).2.1 - 1) = (civilFromDays z).2.1 from by ring]
  have hyo : (if (civilFromDays z).2.1 - 1 + n ≥ 0 then (civilFromDays z).2.1 - 1 + n
      else (civilFromDays z).2.1 - 1 + n - 11).tdiv 12 =
      ((civilFromDays z).2.1 - 1 + n) / 12 := by
    split_ifs with h
    · rw [Int.tdiv_eq_ediv (by omega) (by norm_num)]
    · rw [show (civilFromDays z).2.1 - 1 + n - 11 =
          -(11 - ((civilFromDays z).2.1 - 1 + n)) from by ring, Int.neg_tdiv,
        Int.tdiv_eq_ediv (by omega) (by norm_num)]
      omega
  rw [hyo]
  have hmr : (civilFromDays z).2.1 - 1 + n -
      ((civilFromDays z).2.1 - 1 + n) / 12 * 12 + 1 =
      ((civilFromDays z).2.1 - 1 + n) % 12 + 1 := by omega
  rw [hmr]
  have hmin : (if getMaxDayOfMonth ((civilFromDays z).1 +
        ((civilFromDays z).2.1 - 1 + n) / 12)
        (((civilFromDays z).2.1 - 1 + n) % 12 + 1) < (civilFromDays z).2.2 then
      getMaxDayOfMonth ((civilFromDays z).1 + ((civilFromDays z).2.1 - 1 + n) / 12)
        (((civilFromDays z).2.1 - 1 + n) % 12 + 1)
      else (civilFromDays z).2.2) =
      min (civilFromDays z).2.2
        (getMaxDayOfMonth ((civilFromDays z).1 + ((civilFromDays z).2.1 - 1 + n) / 12)
          (((civilFromDays z).2.1 - 1 + n) % 12 + 1)) := by
    rw [min_def]
    split_ifs <;> omega
  rw [hmin]
  rw [if_pos ((toInt32_eq_self_iff _).mpr hfit).symm]

theorem addMonths_carry_clamp_witness :
    AddMonthsFunction.call 18628 1 =
      Except.ok (daysSinceEpochFromDate
        (addMonthsSpec (civilFromDays 18628).1 (civilFromDays 18628).2.1
          (civilFromDays 18628).2.2 1).1
        (addMonthsSpec (civilFromDays 18628).1 (civilFromDays 18628).2.1
          (civilFromDays 18628).2.2 1).2.1
        (addMonthsSpec (civilFromDays 18628).1 (civilFromDays 18628).2.1
          (civilFromDays 18628).2.2 1).2.2) :=
  (addMonths_carry_clamp 18628 1 (by decide) (by decide)).1


/-- C1 (amended): `week` computes the claim's ISO-8601 formula, reading "its
first Monday" as the first Monday of the date's own year: the base estimate
`⌊(10 + dayOfYear - isoDayOfWeek)/7⌋` with Sunday mapped to 7, the
estimate-0 classification into 52/53 by the current year's first Monday
(day 2 with the previous year leap, or day 3 or 4), and the estimate-53
correction to week 1 when fewer than 3 days separate that week's Monday
from the end of the year; `week(2020-12-31) = 53` and `week(2021-1-1) = 53`. -/
theorem week_matches_iso (z : Int) :
    WeekFunction.call z = isoWeekSpec z ∧
    WeekFunction.call (daysSinceEpochFromDate 2020 12 31) = 53 ∧
    WeekFunction.call (daysSinceEpochFromDate 2021 1 1) = 53 := by
  refine ⟨?_, by rfl, by rfl⟩
  obtain ⟨_, _, _, _, _, _, _, henc, hyd0, hyd1⟩ := civilFromDays_spec z
  simp only [WeekFunction.call, getWeek, getDateTime, isoWeekSpec, dayOfYear,
    isoDayOfWeek, firstMondayOfYear, kDaysInWeek]
  simp only [show (civilFromDays z).1 - 1900 + 1900 = (civilFromDays z).1 from by ring,
    show 1900 + ((civilFromDays z).1 - 1900) = (civilFromDays z).1 from by ring]
  obtain ⟨q, hq⟩ : ∃ x, z - daysSinceEpochFromDate (civilFromDays z).1 1 1 = x :=
    ⟨_, rfl⟩
  rw [hq] at hyd0 hyd1
  simp only [hq]
  obtain ⟨w, hw⟩ : ∃ x, (z + 4) % 7 = x := ⟨_, rfl⟩
  have hw0 : 0 ≤ w := by omega
  have hw1 : w ≤ 6 := by omega
  simp only [hw]
  obtain ⟨jw, hjw⟩ :
      ∃ x, (daysSinceEpochFromDate (civilFromDays z).1 1 1 + 4) % 7 = x := ⟨_, rfl⟩
  have hjw0 : 0 ≤ jw := by omega
  have hjw1 : jw ≤ 6 := by omega
  simp only [hjw]
  have hrel : (jw + q) % 7 = w := by omega
  have hdow : (if w != 0 then w else 7 : Int) = (if w = 0 then 7 else w) := by
    by_cases h : w = 0 <;> simp [h]
  simp only [hdow]
  obtain ⟨dw, hdw⟩ : ∃ x, (if w = 0 then 7 else w : Int) = x := ⟨_, rfl⟩
  have hdwf : (w = 0 ∧ dw = 7) ∨ (1 ≤ w ∧ w ≤ 6 ∧ dw = w) := by
    by_cases h : w = 0 <;> simp [h] at hdw <;> omega
  simp only [hdw]
  obtain ⟨jdw, hjdw⟩ : ∃ x, (if jw = 0 then 7 else jw : Int) = x := ⟨_, rfl⟩
  have hjdwf : (jw = 0 ∧ jdw = 7) ∨ (1 ≤ jw ∧ jw ≤ 6 ∧ jdw = jw) := by
    by_cases h : jw = 0 <;> simp [h] at hjdw <;> omega
  simp only [hjdw]
  simp only [Int.tdiv_eq_ediv
    (show (0 : Int) ≤ 10 + (q + 1) - dw from by omega)
    (show (0 : Int) ≤ 7 from by norm_num)]
  simp only [Int.tmod_eq_emod
    (show (0 : Int) ≤ w + 7 - 1 from by omega)
    (show (0 : Int) ≤ 7 from by norm_num)]
  simp only [Int.tmod_eq_emod
    (show (0 : Int) ≤ q + 1 - (w + 7 - 1) % 7 + 7 - 1 from by omega)
    (show (0 : Int) ≤ 7 from by norm_num)]
  simp only [isLeapYear_iff, Bool.or_eq_true, Bool.and_eq_true, beq_iff_eq]
  split_ifs <;> omega


/-- C1 counterexample to the claim as literally stated: resolving the
estimate-0 case by the *previous* year's first Monday gives 52 at
2021-01-01, but `week` (and the claim's own example) give 53. -/
theorem week_claim_prev_year_counterexample :
    WeekFunction.call (daysSinceEpochFromDate 2021 1 1) ≠
      isoWeekClaim (daysSinceEpochFromDate 2021 1 1) ∧
    WeekFunction.call (daysSinceEpochFromDate 2021 1 1) = 53 ∧
    isoWeekClaim (daysSinceEpochFromDate 2021 1 1) = 52 := by
  refine ⟨?ne, by rfl, by rfl⟩
  intro h
  exact absurd h (by decide)

end VeloxSpark
